import Mathlib

/-!
Verification of the execution tracer in `src/lib/transaction/tracer.js`.

The tracer wraps handler functions so that a shared execution context (the
"current" transaction / segment / call) is installed around each wrapped
invocation.  The file embeds the tracer's three proxy strategies
(`transactionProxy`, `segmentProxy`, `callbackProxy`) as explicit
state-passing functions over a `World` that carries the shared Context slot
and the transaction factory's counter, and proves the spec's claims about
them.

The collaborators that live outside the provided source file
(`lib/transaction/tracer/state.js`, the shared context object, and the
agent's `createTransaction` factory) are modelled from the spec, as marked
on each definition.  JavaScript exceptions are embedded as `Except.error`
results threaded through each call; a JavaScript function's reference
identity is modelled by a numeric id carried next to the Lean function.
-/

namespace NewRelic

/-- Modelled from the spec: a Transaction is an external collaborator,
referenced but not owned; the factory creates them on demand, so a
creation-order id identifies one. -/
structure Transaction where
  id : Nat
deriving DecidableEq

/-- Modelled from the spec: a Segment is one node in a transaction's call
graph; this core never creates or mutates segments, it only threads
references, so a reference id suffices. -/
structure Segment where
  id : Nat
deriving DecidableEq

/-- Modelled from the spec: `transaction.getTrace().root` — every
Transaction exposes the handle of its trace's root segment. -/
def Transaction.traceRoot (t : Transaction) : Segment :=
  ⟨t.id⟩

/-- Modelled from the spec (`lib/transaction/tracer/state.js` is not under
src/): a State immutably binds a transaction, a segment and the handler it
guards (`new State(transaction, segment, call)`).  The `call` field stores
the handler function's reference identity as a numeric id. -/
structure State where
  transaction : Transaction
  segment : Segment
  call : Nat
deriving DecidableEq

/-- The mutable world threaded through the embedding: the shared context's
LIFO stack of entered States (head = current, per the spec's Context with
`enter`/`exit` discipline; the context object itself is not under src/),
and the transaction factory's counter, which models the agent handing out
a brand-new Transaction on every `createTransaction()` call. -/
structure World where
  stack : List State
  nextTxn : Nat
deriving DecidableEq

namespace Context

/-- Modelled from the spec: `current()` (read as `this.context.state` in
tracer.js) returns the most recently entered, not-yet-exited State, or
none when no wrapped call is active. -/
def current (w : World) : Option State :=
  w.stack.head?

/-- Modelled from the spec: `enter(state)` makes `state` current,
preserving whatever was current before it for later restoration (push). -/
def enter (s : State) (w : World) : World :=
  { w with stack := s :: w.stack }

/-- Modelled from the spec: `exit(state)` restores whatever was current
immediately before the matching `enter`; under the LIFO discipline this is
a pop, and the spec says Context does not validate the argument. -/
def exit (_s : State) (w : World) : World :=
  { w with stack := w.stack.tail }

end Context

/-- Modelled from the spec: `agent.createTransaction()` produces a
brand-new Transaction on each call; freshness is modelled by the monotone
counter in `World`. -/
def createTransaction (w : World) : Transaction × World :=
  (⟨w.nextTxn⟩, { w with nextTxn := w.nextTxn + 1 })

/-- A handler (wrapped or not): receives the call's receiver (`this`), its
arguments and the world, may return normally (`Except.ok`) or throw
(`Except.error`), and may itself mutate the world (for instance by
invoking further wrapped functions). -/
abbrev Handler (ι α ρ ε : Type) : Type :=
  ι → α → World → Except ε ρ × World

/-- Translated from `wrapTransactionInvocation` (tracer.js lines 48-57),
the function `transactionProxy` returns: create a transaction via the
factory, build a State over it and its trace root, enter it, apply the
handler to the original receiver and arguments, exit, and return the
handler's value.  The source has no try/finally, so when the handler
throws the `exit` line is skipped and the exception propagates; the
`Except.error` branch mirrors that. -/
def wrapTransactionInvocation (hid : Nat) (handler : Handler ι α ρ ε)
    (this : ι) (args : α) (w : World) : Except ε ρ × World :=
  let p := createTransaction w
  let transaction := p.1
  let state : State := ⟨transaction, transaction.traceRoot, hid⟩
  let w2 := Context.enter state p.2
  match handler this args w2 with
  | (Except.ok returned, w3) => (Except.ok returned, Context.exit state w3)
  | (Except.error e, w3) => (Except.error e, w3)

/-- Translated from `Tracer.prototype.transactionProxy` (tracer.js lines
46-58): wrapping a handler yields the `wrapTransactionInvocation`
closure. -/
def transactionProxy (hid : Nat) (handler : Handler ι α ρ ε) :
    Handler ι α ρ ε :=
  fun this args w => wrapTransactionInvocation hid handler this args w

/-- Translated from `wrapSegmentInvocation` (tracer.js lines 71-82), the
function `segmentProxy` returns: read the context's state; if none, call
the handler directly (no transaction is implicitly created); otherwise
build a new State from the current state's transaction and segment, enter
it, apply the handler, exit, and return the handler's value.  As in the
source, a throwing handler skips the `exit`. -/
def wrapSegmentInvocation (hid : Nat) (handler : Handler ι α ρ ε)
    (this : ι) (args : α) (w : World) : Except ε ρ × World :=
  match Context.current w with
  | none => handler this args w
  | some cur =>
    let state : State := ⟨cur.transaction, cur.segment, hid⟩
    let w1 := Context.enter state w
    match handler this args w1 with
    | (Except.ok returned, w2) => (Except.ok returned, Context.exit state w2)
    | (Except.error e, w2) => (Except.error e, w2)

/-- Translated from `Tracer.prototype.segmentProxy` (tracer.js lines
70-83): wrapping a handler yields the `wrapSegmentInvocation` closure. -/
def segmentProxy (hid : Nat) (handler : Handler ι α ρ ε) :
    Handler ι α ρ ε :=
  fun this args w => wrapSegmentInvocation hid handler this args w

/-- Translated from `Tracer.prototype.callbackProxy` (tracer.js lines
96-110), the wrap-time half: read the context's state at wrap time; if
none, return the original handler unchanged (`Sum.inl handler`); otherwise
return the wrapped closure, represented by `Sum.inr` of the captured State
that initialises the closure's mutable `state` variable.  The returned
closure's per-invocation behaviour is `wrapCallbackInvocation`. -/
def callbackProxy (hid : Nat) (handler : Handler ι α ρ ε) (w : World) :
    Handler ι α ρ ε ⊕ State :=
  match Context.current w with
  | none => Sum.inl handler
  | some state => Sum.inr state

/-- Translated from `wrapCallbackInvocation` (tracer.js lines 102-109):
each invocation reassigns the closure's `state` variable (`cell` here) to
a new State built from the previous State's transaction and segment,
enters it, applies the handler, exits, and returns the handler's value.
The updated cell is returned alongside the result so repeated invocations
can thread it.  As in the source, a throwing handler skips the `exit`
(the cell was already reassigned before the call). -/
def wrapCallbackInvocation (hid : Nat) (handler : Handler ι α ρ ε)
    (cell : State) (this : ι) (args : α) (w : World) :
    (Except ε ρ × World) × State :=
  let state : State := ⟨cell.transaction, cell.segment, hid⟩
  let w1 := Context.enter state w
  match handler this args w1 with
  | (Except.ok returned, w2) => ((Except.ok returned, Context.exit state w2), state)
  | (Except.error e, w2) => ((Except.error e, w2), state)

/-- Repeated invocations of one callbackProxy-produced closure: thread the
closure's mutable `state` cell through a list of invocations, each with
its own receiver, arguments and (arbitrary) ambient world. -/
def runCallbackSeq (hid : Nat) (handler : Handler ι α ρ ε) :
    State → List (ι × α × World) → State
  | cell, [] => cell
  | cell, (this, args, w) :: rest =>
    runCallbackSeq hid handler
      (wrapCallbackInvocation hid handler cell this args w).2 rest

/-- Translated from the `Tracer` constructor (tracer.js lines 29-36):
holds the transaction counter, the agent (transaction factory) and the
shared context. -/
structure Tracer (A C : Type) where
  numTransactions : Nat
  agent : A
  context : C

/-- Translated from the `Tracer` constructor (tracer.js lines 29-36): an
absent (null/undefined) argument is modelled as `none`, and each `throw
new Error(...)` as `Except.error` with the source's message; with both
arguments present, construction succeeds with `numTransactions = 0`. -/
def Tracer.construct (agent : Option A) (context : Option C) :
    Except String (Tracer A C) :=
  match agent with
  | none => Except.error "Must be initialized with an agent."
  | some a =>
    match context with
    | none => Except.error "Must include shared context."
    | some c => Except.ok { numTransactions := 0, agent := a, context := c }

/-- A probe handler: returns the receiver, the arguments and the current
state it observes, without mutating the world.  Used to state what a
handler sees and receives inside a wrapper. -/
def probe (ι α : Type) : Handler ι α (ι × α × Option State) Empty :=
  fun this args w => (Except.ok (this, args, Context.current w), w)

/-- A handler that throws `e` without any other effect, modelling a
JavaScript handler whose body raises. -/
def throwWith (ι α ρ : Type) (e : ε) : Handler ι α ρ ε :=
  fun _ _ w => (Except.error e, w)

/-- The sequence of current states observed by the handler across repeated
invocations of one callbackProxy-produced closure running the `probe`
handler: for each invocation, the state the handler sees as current, with
the closure's `state` cell threaded exactly as `wrapCallbackInvocation`
does. -/
def callbackObservations (ι α : Type) (hid : Nat) :
    State → List (ι × α × World) → List (Option State)
  | _, [] => []
  | cell, (this, args, w) :: rest =>
    let r := wrapCallbackInvocation hid (probe ι α) cell this args w
    (match (r.1).1 with
     | Except.ok (_, _, o) => o
     | Except.error e => Empty.elim e) ::
      callbackObservations ι α hid r.2 rest

/-- A finite tree of nested wrapped invocations: each node is either a
transactionProxy-wrapped or a segmentProxy-wrapped call whose handler
synchronously performs the child calls in order and then returns
normally. -/
inductive Call : Type where
  | txn (hid : Nat) (inner : List Call)
  | seg (hid : Nat) (inner : List Call)

mutual

/-- Run one nested wrapped call through the actual wrapper definitions:
the handler performs the child calls in order and returns normally. -/
def runCall (c : Call) (w : World) : World :=
  match c with
  | .txn hid inner =>
    (wrapTransactionInvocation hid
      ((fun _ _ w1 => (Except.ok (), runCalls inner w1)) :
        Handler Unit Unit Unit Empty)
      () () w).2
  | .seg hid inner =>
    (wrapSegmentInvocation hid
      ((fun _ _ w1 => (Except.ok (), runCalls inner w1)) :
        Handler Unit Unit Unit Empty)
      () () w).2

/-- Run a list of nested wrapped calls in order. -/
def runCalls (cs : List Call) (w : World) : World :=
  match cs with
  | [] => w
  | c :: rest => runCalls rest (runCall c w)

end

/-! ## Helper lemmas -/

/-- Whatever the handler does and whether it returns or throws, one
invocation of a callbackProxy closure reassigns the closure's `state` cell
to a new State built from the previous cell's transaction and segment. -/
theorem wrapCallbackInvocation_cell (hid : Nat) (handler : Handler ι α ρ ε)
    (cell : State) (this : ι) (args : α) (w : World) :
    (wrapCallbackInvocation hid handler cell this args w).2 =
      ⟨cell.transaction, cell.segment, hid⟩ := by
  simp only [wrapCallbackInvocation]
  split <;> rfl

/-- Threading the closure cell through any sequence of invocations never
changes its transaction or segment fields. -/
theorem runCallbackSeq_fixed (hid : Nat) (handler : Handler ι α ρ ε)
    (invs : List (ι × α × World)) (cell : State) :
    (runCallbackSeq hid handler cell invs).transaction = cell.transaction ∧
    (runCallbackSeq hid handler cell invs).segment = cell.segment := by
  induction invs generalizing cell with
  | nil => exact ⟨rfl, rfl⟩
  | cons p rest ih =>
    obtain ⟨this, args, w⟩ := p
    rw [runCallbackSeq, wrapCallbackInvocation_cell]
    simpa using ih ⟨cell.transaction, cell.segment, hid⟩

/-- With a cell still referencing transaction `T` and segment `S`, the
probe handler observes exactly the state `⟨T, S, hid⟩` during one
callbackProxy invocation. -/
theorem callbackObservations_fixed (ι α : Type) (hid : Nat)
    (T : Transaction) (S : Segment) (invs : List (ι × α × World))
    (cell : State) (h1 : cell.transaction = T) (h2 : cell.segment = S) :
    callbackObservations ι α hid cell invs =
      invs.map (fun _ => some ⟨T, S, hid⟩) := by
  induction invs generalizing cell with
  | nil => rfl
  | cons p rest ih =>
    obtain ⟨this, args, w⟩ := p
    subst h1
    subst h2
    rw [callbackObservations, wrapCallbackInvocation_cell, List.map]
    exact congrArg₂ List.cons rfl
      (ih ⟨cell.transaction, cell.segment, hid⟩ rfl rfl)

mutual

/-- Running one nested tree of wrapped calls (all handlers returning
normally) leaves the context stack exactly as it was. -/
theorem runCall_stack (c : Call) (w : World) : (runCall c w).stack = w.stack := by
  cases c with
  | txn hid inner =>
    simp only [runCall, wrapTransactionInvocation, createTransaction,
      Context.enter, Context.exit]
    rw [runCalls_stack inner]
    rfl
  | seg hid inner =>
    cases hc : Context.current w with
    | none =>
      simp only [runCall, wrapSegmentInvocation, hc]
      exact runCalls_stack inner w
    | some cur =>
      simp only [runCall, wrapSegmentInvocation, hc, Context.enter, Context.exit]
      rw [runCalls_stack inner]
      rfl

/-- Running a list of nested trees of wrapped calls leaves the context
stack exactly as it was. -/
theorem runCalls_stack (cs : List Call) (w : World) : (runCalls cs w).stack = w.stack := by
  cases cs with
  | nil => rw [runCalls]
  | cons c rest =>
    rw [runCalls, runCalls_stack rest, runCall_stack c]

end

/-! ## Claims -/

/-- Claim C1, counterexample: a transactionProxy wrapper whose handler
throws does NOT perform its context exit before the error propagates.
Starting with no current state, the handler throws 42; the error
propagates unchanged, but afterwards the current state is the state the
wrapper entered, not the `none` that was current before. -/
theorem transactionProxy_throw_leaks_context :
    (wrapTransactionInvocation 0 (throwWith Unit Unit Unit 42) () ()
        ⟨[], 0⟩).1 = Except.error 42 ∧
    Context.current (⟨[], 0⟩ : World) = none ∧
    Context.current (wrapTransactionInvocation 0 (throwWith Unit Unit Unit 42)
        () () ⟨[], 0⟩).2 = some ⟨⟨0⟩, ⟨0⟩, 0⟩ ∧
    Context.current (wrapTransactionInvocation 0 (throwWith Unit Unit Unit 42)
        () () ⟨[], 0⟩).2 ≠ Context.current (⟨[], 0⟩ : World) := by
  exact ⟨rfl, rfl, rfl, by decide⟩

/-- Claim C1, amended: when the wrapped handler throws during its
synchronous execution, each of the three wrappers propagates the error
unchanged to its caller, but performs no matching context exit: the state
the wrapper entered remains current after the throw propagates out, on top
of whatever was current before. -/
theorem wrappers_throw_skip_exit (hid : Nat) (e : ε) (this : ι) (args : α)
    (w : World) (cur : State) (rest : List State) (cell : State)
    (hw : w.stack = cur :: rest) :
    wrapTransactionInvocation hid (throwWith ι α ρ e) this args w =
      (Except.error e,
        ⟨⟨⟨w.nextTxn⟩, Transaction.traceRoot ⟨w.nextTxn⟩, hid⟩ :: w.stack,
          w.nextTxn + 1⟩) ∧
    wrapSegmentInvocation hid (throwWith ι α ρ e) this args w =
      (Except.error e,
        ⟨⟨cur.transaction, cur.segment, hid⟩ :: w.stack, w.nextTxn⟩) ∧
    wrapCallbackInvocation hid (throwWith ι α ρ e) cell this args w =
      ((Except.error e,
          ⟨⟨cell.transaction, cell.segment, hid⟩ :: w.stack, w.nextTxn⟩),
        ⟨cell.transaction, cell.segment, hid⟩) := by
  refine ⟨rfl, ?_, rfl⟩
  have hcur : Context.current w = some cur := by
    simp [Context.current, hw]
  simp only [wrapSegmentInvocation, hcur, throwWith, Context.enter]

/-- Witness for the amended C1 theorem at a concrete input. -/
theorem wrappers_throw_skip_exit_witness :
    wrapSegmentInvocation 5 (throwWith Unit Unit Unit 7) () ()
        ⟨[⟨⟨1⟩, ⟨2⟩, 3⟩], 4⟩ =
      (Except.error 7, ⟨[⟨⟨1⟩, ⟨2⟩, 5⟩, ⟨⟨1⟩, ⟨2⟩, 3⟩], 4⟩) :=
  (wrappers_throw_skip_exit 5 7 () () ⟨[⟨⟨1⟩, ⟨2⟩, 3⟩], 4⟩ ⟨⟨1⟩, ⟨2⟩, 3⟩ []
    ⟨⟨9⟩, ⟨9⟩, 9⟩ rfl).2.1

/-- Claim C2: every invocation of a transactionProxy wrapper creates a
brand-new transaction via the factory: the handler observes the freshly
created transaction (with its trace root as segment), which differs from
every transaction current on the ambient stack, and a second invocation
observes a different transaction than the first. -/
theorem transactionProxy_creates_new_transaction (hid : Nat) (this : ι)
    (args : α) (w : World)
    (hfresh : ∀ s ∈ w.stack, s.transaction.id < w.nextTxn) :
    (wrapTransactionInvocation hid (probe ι α) this args w).1 =
      Except.ok (this, args,
        some ⟨⟨w.nextTxn⟩, Transaction.traceRoot ⟨w.nextTxn⟩, hid⟩) ∧
    (∀ s ∈ w.stack, s.transaction ≠ (⟨w.nextTxn⟩ : Transaction)) ∧
    (wrapTransactionInvocation hid (probe ι α) this args
        (wrapTransactionInvocation hid (probe ι α) this args w).2).1 =
      Except.ok (this, args,
        some ⟨⟨w.nextTxn + 1⟩, Transaction.traceRoot ⟨w.nextTxn + 1⟩, hid⟩) ∧
    (⟨w.nextTxn⟩ : Transaction) ≠ (⟨w.nextTxn + 1⟩ : Transaction) := by
  refine ⟨rfl, ?_, rfl, by simp⟩
  intro s hs heq
  have h := hfresh s hs
  rw [heq] at h
  exact absurd h (by simp)

/-- Witness for C2: invoked while another transaction's state is current. -/
theorem transactionProxy_creates_new_transaction_witness :
    (wrapTransactionInvocation 2 (probe Unit Unit) () ()
        ⟨[⟨⟨0⟩, ⟨0⟩, 1⟩], 1⟩).1 =
      Except.ok ((), (), some ⟨⟨1⟩, Transaction.traceRoot ⟨1⟩, 2⟩) :=
  (transactionProxy_creates_new_transaction 2 () () ⟨[⟨⟨0⟩, ⟨0⟩, 1⟩], 1⟩
    (by decide)).1

/-- Claim C3: wrapping with callbackProxy while `{T, S}` is current
captures that state, and however the context has changed by the time the
closure is invoked (any later world), the handler observes a current state
with transaction `T` and segment `S` during its execution. -/
theorem callbackProxy_capture_survives (hid cid : Nat)
    (handler : Handler ι α ρ ε) (T : Transaction) (S : Segment)
    (w0 wLater : World) (this : ι) (args : α)
    (hcur : Context.current w0 = some ⟨T, S, cid⟩) :
    callbackProxy hid handler w0 = Sum.inr ⟨T, S, cid⟩ ∧
    ((wrapCallbackInvocation hid (probe ι α) ⟨T, S, cid⟩ this args
        wLater).1).1 = Except.ok (this, args, some ⟨T, S, hid⟩) := by
  constructor
  · simp only [callbackProxy, hcur]
  · rfl

/-- Witness for C3: wrapped while `{T1, S2}` was current, invoked later
while a different state is current. -/
theorem callbackProxy_capture_survives_witness :
    callbackProxy 4 (probe Unit Unit) ⟨[⟨⟨1⟩, ⟨2⟩, 3⟩], 5⟩ =
      Sum.inr ⟨⟨1⟩, ⟨2⟩, 3⟩ ∧
    ((wrapCallbackInvocation 4 (probe Unit Unit) ⟨⟨1⟩, ⟨2⟩, 3⟩ () ()
        ⟨[⟨⟨7⟩, ⟨8⟩, 9⟩], 6⟩).1).1 =
      Except.ok ((), (), some ⟨⟨1⟩, ⟨2⟩, 4⟩) :=
  callbackProxy_capture_survives 4 3 (probe Unit Unit) ⟨1⟩ ⟨2⟩
    ⟨[⟨⟨1⟩, ⟨2⟩, 3⟩], 5⟩ ⟨[⟨⟨7⟩, ⟨8⟩, 9⟩], 6⟩ () () rfl

/-- Claim C4: any sequence of nested transactionProxy- and
segmentProxy-wrapped calls that starts with no current state and whose
handlers all return normally leaves no current state behind once the
outermost wrapped call has returned. -/
theorem nested_wrappers_leave_no_state (cs : List Call) (w : World)
    (hempty : w.stack = []) :
    Context.current (runCalls cs w) = none := by
  simp [Context.current, runCalls_stack, hempty]

/-- Witness for C4: a nested tree of wrapped calls from the empty
context. -/
theorem nested_wrappers_leave_no_state_witness :
    Context.current (runCalls
      [Call.txn 0 [Call.seg 1 [], Call.txn 2 [Call.seg 3 []]]] ⟨[], 0⟩) =
      none :=
  nested_wrappers_leave_no_state
    [Call.txn 0 [Call.seg 1 [], Call.txn 2 [Call.seg 3 []]]] ⟨[], 0⟩ rfl

/-- Claim C5: a segmentProxy wrapper invoked while `{T, S}` is current
builds a new State inheriting that transaction and segment (with its own
handler id), makes it current for the handler's execution, and afterwards
restores the world exactly, with the untouched previous state `{T, S}`
current again. -/
theorem segmentProxy_inherits_and_restores (hid cid : Nat) (T : Transaction)
    (S : Segment) (rest : List State) (this : ι) (args : α) (w : World)
    (hw : w.stack = ⟨T, S, cid⟩ :: rest) :
    (wrapSegmentInvocation hid (probe ι α) this args w).1 =
      Except.ok (this, args, some ⟨T, S, hid⟩) ∧
    (wrapSegmentInvocation hid (probe ι α) this args w).2 = w ∧
    Context.current (wrapSegmentInvocation hid (probe ι α) this args w).2 =
      some ⟨T, S, cid⟩ := by
  obtain ⟨stk, nx⟩ := w
  replace hw : stk = ⟨T, S, cid⟩ :: rest := hw
  subst hw
  exact ⟨rfl, rfl, rfl⟩

/-- Witness for C5 at a concrete current state. -/
theorem segmentProxy_inherits_and_restores_witness :
    (wrapSegmentInvocation 4 (probe Unit Unit) () ()
        ⟨[⟨⟨1⟩, ⟨2⟩, 3⟩], 9⟩).1 =
      Except.ok ((), (), some ⟨⟨1⟩, ⟨2⟩, 4⟩) :=
  (segmentProxy_inherits_and_restores 4 3 ⟨1⟩ ⟨2⟩ [] () ()
    ⟨[⟨⟨1⟩, ⟨2⟩, 3⟩], 9⟩ rfl).1

/-- Claim C6: a segmentProxy wrapper invoked with no current state calls
the handler directly with the same receiver, arguments and world (so no
context is installed and no transaction is created) and returns its exact
result. -/
theorem segmentProxy_no_current_passthrough (hid : Nat)
    (handler : Handler ι α ρ ε) (this : ι) (args : α) (w : World)
    (hnone : Context.current w = none) :
    wrapSegmentInvocation hid handler this args w = handler this args w := by
  simp only [wrapSegmentInvocation, hnone]

/-- Witness for C6 with a concrete handler and empty context. -/
theorem segmentProxy_no_current_passthrough_witness :
    wrapSegmentInvocation 3
        ((fun _ _ w => (Except.ok 7, w)) : Handler Unit Unit Nat Empty)
        () () ⟨[], 5⟩ =
      (Except.ok 7, ⟨[], 5⟩) := by
  rw [segmentProxy_no_current_passthrough 3
    ((fun _ _ w => (Except.ok 7, w)) : Handler Unit Unit Nat Empty)
    () () ⟨[], 5⟩ rfl]

/-- Claim C7: callbackProxy called while no state is current returns the
original handler itself, unchanged — no wrapping, no captured state. -/
theorem callbackProxy_no_current_identity (hid : Nat)
    (handler : Handler ι α ρ ε) (w : World)
    (hnone : Context.current w = none) :
    callbackProxy hid handler w = Sum.inl handler := by
  simp only [callbackProxy, hnone]

/-- Witness for C7 with a concrete handler and empty context. -/
theorem callbackProxy_no_current_identity_witness :
    callbackProxy 3 ((fun _ _ w => (Except.ok 7, w)) : Handler Unit Unit Nat Empty)
        ⟨[], 5⟩ =
      Sum.inl ((fun _ _ w => (Except.ok 7, w)) : Handler Unit Unit Nat Empty) :=
  callbackProxy_no_current_identity 3
    ((fun _ _ w => (Except.ok 7, w)) : Handler Unit Unit Nat Empty) ⟨[], 5⟩ rfl

/-- Claim C8: constructing a Tracer with an absent agent (transaction
factory) or an absent context fails immediately with the corresponding
error; with both present it succeeds, with the transaction counter at
zero. -/
theorem tracer_construct_requires_both (A C : Type) (a : A) (c : C) :
    @Tracer.construct A C none (some c) =
      Except.error "Must be initialized with an agent." ∧
    @Tracer.construct A C (some a) none =
      Except.error "Must include shared context." ∧
    @Tracer.construct A C none none =
      Except.error "Must be initialized with an agent." ∧
    @Tracer.construct A C (some a) (some c) =
      Except.ok ⟨0, a, c⟩ :=
  ⟨rfl, rfl, rfl, rfl⟩

/-- Claim C9: all three wrappers call the handler with exactly the
receiver and arguments supplied at the call site, and return the handler's
return value unchanged when it returns normally (the probe handler returns
the pair it receives, and that exact value comes back out). -/
theorem wrappers_forward_receiver_args_result (hid : Nat) (this : ι)
    (args : α) (w : World) (cell : State) :
    (∃ o, (wrapTransactionInvocation hid (probe ι α) this args w).1 =
      Except.ok (this, args, o)) ∧
    (∃ o, (wrapSegmentInvocation hid (probe ι α) this args w).1 =
      Except.ok (this, args, o)) ∧
    (∃ o, ((wrapCallbackInvocation hid (probe ι α) cell this args w).1).1 =
      Except.ok (this, args, o)) := by
  refine ⟨⟨_, rfl⟩, ?_, ⟨_, rfl⟩⟩
  cases hc : Context.current w with
  | none => exact ⟨none, by simp only [wrapSegmentInvocation, hc, probe]⟩
  | some cur =>
    refine ⟨some ⟨cur.transaction, cur.segment, hid⟩, ?_⟩
    simp only [wrapSegmentInvocation, hc]
    simp only [probe, Context.enter, Context.current, List.head?_cons]

/-- Claim C10: across any number of invocations of one callbackProxy
closure, the closure's reassigned `state` cell always carries the
originally captured transaction and segment, and the handler observes
exactly `{T, S}` on every single invocation, not only the first. -/
theorem callbackProxy_never_drifts (ι α : Type) (hid cid : Nat)
    (T : Transaction) (S : Segment) (invs : List (ι × α × World)) :
    callbackObservations ι α hid ⟨T, S, cid⟩ invs =
      invs.map (fun _ => some ⟨T, S, hid⟩) ∧
    (runCallbackSeq hid (probe ι α) ⟨T, S, cid⟩ invs).transaction = T ∧
    (runCallbackSeq hid (probe ι α) ⟨T, S, cid⟩ invs).segment = S := by
  refine ⟨callbackObservations_fixed ι α hid T S invs ⟨T, S, cid⟩ rfl rfl, ?_, ?_⟩
  · exact (runCallbackSeq_fixed hid (probe ι α) invs ⟨T, S, cid⟩).1
  · exact (runCallbackSeq_fixed hid (probe ι α) invs ⟨T, S, cid⟩).2

end NewRelic
